import Mathlib

/-!
Shallow embedding of the TODO backend (Express/Mongoose application) for
checking its natural-language specification.

Sources embedded:
- `src/middleware/auth.js` : the JWT auth middleware and the todo routes
  (GET/POST/PUT/DELETE `/todos`, POST `/todos/plan-tomorrow`);
- `src/routes/auth.js`     : the credential routes (send-verification-code,
  verify-code, register, login, user, forgot-password, reset-password);
- `src/models/User.js`     : the User schema;
- `src/unnamed/part_000`   : the server entry point with the midnight cron job.

Modelling conventions:
- Timestamps are epoch milliseconds as `Nat`.
- JavaScript falsy checks on request strings (`!email`) are modelled as
  equality with `""`; absent JSON fields are `Option.none`.
- Mongoose documents are structure values; a collection is a `List`;
  `findOne`/`find` become `List.find?`/`List.filter`; saving a document
  back becomes a `List.map` that rewrites the matching entry.
- External collaborators (bcrypt hashing, Math.random code generation,
  `Date.now()`, fresh `_id` generation) are passed in as explicit
  parameters, which keeps every definition deterministic and executable.
- `new Date(ms).getDay()` is modelled as the UTC weekday of the epoch
  offset (1970-01-01 is a Thursday, weekday 4); the claims under check
  concern the histogram/argmax logic, not the timezone offset.
-/

namespace TodoApp

/-- A todo document, after `src/models/todoModel` (schema file not in the
repository snapshot; fields are exactly those read and written by the todo
routes and described in the spec data model): title, completed flag,
optional completion timestamp, optional due date, priority string,
tags, category, notes, owning user id, creation timestamp. -/
structure Todo where
  tid : Nat
  title : String
  completed : Bool
  completedAt : Option Nat
  dueDate : Option Nat
  priority : String
  tags : List String
  category : String
  notes : String
  user : Nat
  createdAt : Nat
deriving Repr, DecidableEq

/-- Request body of `POST /todos`.  Absent fields are `none`. -/
structure CreateBody where
  title : String
  completed : Option Bool
  dueDate : Option Nat
  priority : Option String
  tags : Option (List String)
  category : Option String
  notes : Option String
deriving Repr, DecidableEq

/-- Route `POST /todos` (todo routes, `router.post('/')`): builds the new document.
`req.body.completed || false`, `req.body.priority || 'medium'`,
`req.body.tags || []`, `req.body.category || 'general'`,
`req.body.notes || ''`; `completedAt` is never set at creation;
`user` comes from the token. -/
def createTodo (uid : Nat) (b : CreateBody) (tid now : Nat) : Todo :=
  { tid := tid
    title := b.title
    completed := b.completed.getD false
    completedAt := none
    dueDate := b.dueDate
    priority := b.priority.getD "medium"
    tags := b.tags.getD []
    category := b.category.getD "general"
    notes := b.notes.getD ""
    user := uid
    createdAt := now }

/-- Request body of `PUT /todos/:id`.  The route passes `req.body` wholesale
to `findByIdAndUpdate`, so every schema field may appear, including
`completedAt` and `user`.  `some none` in `completedAt`/`dueDate` models an
explicit JSON `null`. -/
structure UpdateBody where
  title : Option String
  completed : Option Bool
  completedAt : Option (Option Nat)
  dueDate : Option (Option Nat)
  priority : Option String
  tags : Option (List String)
  category : Option String
  notes : Option String
  user : Option Nat
deriving Repr, DecidableEq

/-- The body rewrite in `PUT /todos/:id` before the update is applied:
`if (req.body.completed && !todo.completed) req.body.completedAt = new Date();
else if (req.body.completed === false) req.body.completedAt = null;`. -/
def adjustBody (t : Todo) (b : UpdateBody) (now : Nat) : UpdateBody :=
  if b.completed = some true ∧ t.completed = false then
    { b with completedAt := some (some now) }
  else if b.completed = some false then
    { b with completedAt := some none }
  else b

/-- Semantics of `findByIdAndUpdate(id, body)`: every field present in the body is
written onto the document ($set semantics of a plain update object). -/
def applyBody (t : Todo) (b : UpdateBody) : Todo :=
  { t with
    title := b.title.getD t.title
    completed := b.completed.getD t.completed
    completedAt := b.completedAt.getD t.completedAt
    dueDate := b.dueDate.getD t.dueDate
    priority := b.priority.getD t.priority
    tags := b.tags.getD t.tags
    category := b.category.getD t.category
    notes := b.notes.getD t.notes
    user := b.user.getD t.user }

/-- Route `PUT /todos/:id`: look up the todo by id scoped to the requesting user
(404 → `none` when absent), rewrite the body from the found document's
completed flag, then update by id and return the new document. -/
def updateTodo (store : List Todo) (uid tid : Nat) (b : UpdateBody) (now : Nat) :
    Option (List Todo × Todo) :=
  match store.find? (fun x => x.tid == tid && x.user == uid) with
  | none => none
  | some t =>
    let b2 := adjustBody t b now
    some (store.map (fun x => if x.tid == tid then applyBody x b2 else x), applyBody t b2)

/-- Route `DELETE /todos/:id`: look up scoped to the user (404 → `none`), then
delete by id. -/
def deleteTodo (store : List Todo) (uid tid : Nat) : Option (List Todo) :=
  match store.find? (fun x => x.tid == tid && x.user == uid) with
  | none => none
  | some _ => some (store.filter (fun x => x.tid != tid))

/-- A due date lies in `[tomorrow, tomorrow + 24h)` — the window used by both
Mongo range queries of the planning route (`$gte: tomorrow`,
`$lt: tomorrow + 24*60*60*1000`). -/
def isDueTomorrow (tom : Nat) (t : Todo) : Bool :=
  match t.dueDate with
  | some d => decide (tom ≤ d ∧ d < tom + 86400000)
  | none => false

/-- The filter of both window queries in the planning route:
due in the window and owned by the user. -/
def dueTomorrowFor (uid tom : Nat) (t : Todo) : Bool :=
  isDueTomorrow tom t && t.user == uid

/-- UTC weekday of an epoch-millisecond timestamp (`new Date(ms).getDay()`,
modulo the timezone offset); 1970-01-01 is a Thursday (= 4), 0 = Sunday. -/
def dayOfWeek (ms : Nat) : Nat :=
  (ms / 86400000 + 4) % 7

/-- Count of completions falling on weekday `d`, over the records that have
a completion timestamp (the `forEach` skips records where
`todo.completedAt && todo.createdAt` is falsy; `createdAt` is always set
by the schema, so only `completedAt` can be missing). -/
def completionByDay (ts : List Todo) (d : Nat) : Nat :=
  (ts.filter (fun t => t.completedAt.isSome && dayOfWeek (t.completedAt.getD 0) == d)).length

/-- The argmax loop of the planning route:
`let mostProductiveDay = 0; let highestCompletions = 0;
 Object.keys(completionByDay).forEach(day => { if (count > highest) update })`.
The accumulator is `(mostProductiveDay, highestCompletions)`. -/
def scanBest (f : Nat → Nat) : List Nat → Nat × Nat → Nat × Nat
  | [], acc => acc
  | d :: rest, acc => scanBest f rest (if acc.2 < f d then (d, f d) else acc)

/-- Computation of `mostProductiveDay` in the planning route.  JavaScript `Object.keys` on
an object whose keys are the integer-like strings "0".."6" iterates them in
ascending numeric order (ECMAScript array-index key ordering), regardless of
insertion order; iterating all of `0..6` is equivalent because weekdays with
count `0` never pass the strict `>` test against a running maximum ≥ 0. -/
def mostProductiveDay (ts : List Todo) : Nat :=
  (scanBest (completionByDay ts) (List.range 7) (0, 0)).1

/-- Weekdays of the valid completions in record order (the order the
`forEach` encounters them while building the histogram). -/
def completionDays (ts : List Todo) : List Nat :=
  ts.filterMap (fun t =>
    match t.completedAt with
    | some c => some (dayOfWeek c)
    | none => none)

/-- First-occurrence deduplication, keeping encounter order. -/
def firstOccurrences (l : List Nat) : List Nat :=
  l.foldl (fun acc d => if acc.contains d then acc else acc ++ [d]) []

/-- Modelled from the spec's words (claim C9), not from the code: the same
argmax loop but iterating the weekday keys in the order they were first
encountered during histogram construction ("ties resolve to the lowest
weekday index encountered first during histogram construction"). -/
def mostProductiveDaySpec (ts : List Todo) : Nat :=
  (scanBest (completionByDay ts) (firstOccurrences (completionDays ts)) (0, 0)).1

/-- Value `Math.ceil(Math.max(3, completedCount / 7 + 1))` with real division:
`ceil (max 3 (n/7 + 1)) = max 3 (⌈n/7⌉ + 1)` and `⌈n/7⌉ = (n + 6) / 7`
in natural division. -/
def optimalTaskCount (n : Nat) : Nat :=
  max 3 ((n + 6) / 7 + 1)

/-- Result of `POST /todos/plan-tomorrow`: either the idempotence-guard
response `{planned: false, tasksExisting}` or the planning response
`{planned: true, taskCount, analysis.mostProductiveDay}`. -/
inductive PlanResponse where
  | alreadyPlanned (tasksExisting : Nat)
  | planned (taskCount : Nat) (mostProductiveDay : Nat)
deriving Repr, DecidableEq

/-- The write phase of `POST /todos/plan-tomorrow`, reached once the
idempotence guard has passed: every pending high-priority todo of the user
is saved with `dueDate = tomorrow` (looping over
`pendingTodos.filter(priority === 'high')` and saving each); then up to
`additionalTasksNeeded = max(0, optimalTaskCount - highPriorityTasks.length)`
pending medium-priority todos without a due date, in stored order, are
saved with `dueDate = tomorrow` (the JS guards the selection with
`if (additionalTasksNeeded > 0)`, which is equivalent to taking a prefix
of length 0).  All selections are computed from the snapshot read at the
start of the request, exactly as the route does. -/
def planWriteBack (store : List Todo) (uid tom : Nat) : List Todo :=
  let completedTodos := store.filter (fun t => t.completed && t.user == uid)
  let pendingTodos := store.filter (fun t => !t.completed && t.user == uid)
  let highPriorityTasks := pendingTodos.filter (fun t => t.priority == "high")
  let store1 := store.map (fun t =>
    if (!t.completed && t.user == uid) && t.priority == "high" then
      { t with dueDate := some tom }
    else t)
  let additionalTasksNeeded := optimalTaskCount completedTodos.length - highPriorityTasks.length
  let mediumPriorityTasks := pendingTodos.filter (fun t => t.priority == "medium" && t.dueDate.isNone)
  let tasksToAdd := mediumPriorityTasks.take additionalTasksNeeded
  store1.map (fun t =>
    if (tasksToAdd.map Todo.tid).contains t.tid then { t with dueDate := some tom } else t)

/-- Route `POST /todos/plan-tomorrow` for one user.  `tom` is the computed
"tomorrow at local midnight" instant.  Mirrors the route: idempotence
guard on the due-tomorrow window of the user, then the write phase
(`planWriteBack`) and the final re-read of the window; the analysis bundle
is computed over the completed todos of the user (here reduced to
`mostProductiveDay`, the part the claims under check mention).  Returns
the response and the updated store. -/
def planTomorrow (store : List Todo) (uid tom : Nat) : PlanResponse × List Todo :=
  let existingPlannedTasks := store.filter (dueTomorrowFor uid tom)
  if 0 < existingPlannedTasks.length then
    (PlanResponse.alreadyPlanned existingPlannedTasks.length, store)
  else
    let store2 := planWriteBack store uid tom
    let tomorrowTasks := store2.filter (dueTomorrowFor uid tom)
    (PlanResponse.planned tomorrowTasks.length
      (mostProductiveDay (store.filter (fun t => t.completed && t.user == uid))), store2)

/-- Shape of `planTomorrow` when the idempotence guard fires. -/
lemma planTomorrow_pos (store : List Todo) (uid tom : Nat)
    (h : 0 < (store.filter (dueTomorrowFor uid tom)).length) :
    planTomorrow store uid tom =
      (PlanResponse.alreadyPlanned (store.filter (dueTomorrowFor uid tom)).length, store) := by
  simp only [planTomorrow]
  rw [if_pos h]

/-- Shape of `planTomorrow` when the idempotence guard passes. -/
lemma planTomorrow_neg (store : List Todo) (uid tom : Nat)
    (h : ¬ 0 < (store.filter (dueTomorrowFor uid tom)).length) :
    planTomorrow store uid tom =
      (PlanResponse.planned ((planWriteBack store uid tom).filter (dueTomorrowFor uid tom)).length
        (mostProductiveDay (store.filter (fun t => t.completed && t.user == uid))),
       planWriteBack store uid tom) := by
  simp only [planTomorrow]
  rw [if_neg h]

/-- A user document, after `src/models/User.js`: optional name, email,
optional password hash, `isVerified` (default false), optional
verification code and expiry, optional reset code and expiry. -/
structure User where
  uid : Nat
  name : Option String
  email : String
  password : Option String
  isVerified : Bool
  verificationCode : Option String
  codeExpires : Option Nat
  resetCode : Option String
  resetCodeExpires : Option Nat
deriving Repr, DecidableEq

/-- Query `User.findOne({ email })`: first user with the given email (the schema
declares `email: unique`, so at most one exists in well-formed stores). -/
def findOneEmail (s : List User) (email : String) : Option User :=
  s.find? (fun u => u.email == email)

/-- Rewrite the user documents matching an email (saving a found document
back; with unique emails this touches exactly the found one). -/
def updateWhere (s : List User) (email : String) (f : User → User) : List User :=
  s.map (fun u => if u.email == email then f u else u)

/-- Error outcomes of the credential routes, labelled with the spec's
taxonomy; each constructor corresponds to one early-return branch of
`src/routes/auth.js`. -/
inductive AuthErr where
  | MissingFields
  | AlreadyVerified
  | NotFound
  | InvalidCode
  | CodeExpired
  | UserExists
  | VerificationRequired
  | InvalidCredentials
  | EmailNotVerified
  | InvalidOrExpiredCode
deriving Repr, DecidableEq

/-- Route `POST /auth/send-verification-code`.  `code` stands for the generated
6-digit code and `freshUid` for the id Mongo would assign on upsert.
Rejects when a verified user with the email exists; otherwise upserts
`{email, verificationCode, codeExpires: now + 10min, isVerified: false}`
(the upsert does not touch `password` or the reset fields of an existing
record). -/
def sendVerificationCode (s : List User) (email code : String) (now freshUid : Nat) :
    Except AuthErr (List User) :=
  if email = "" then Except.error AuthErr.MissingFields
  else
    match s.find? (fun u => u.email == email && u.isVerified) with
    | some _ => Except.error AuthErr.AlreadyVerified
    | none =>
      match findOneEmail s email with
      | some _ =>
        Except.ok (updateWhere s email (fun u =>
          { u with verificationCode := some code
                   codeExpires := some (now + 600000)
                   isVerified := false }))
      | none =>
        Except.ok (s ++ [{ uid := freshUid, name := none, email := email,
                           password := none, isVerified := false,
                           verificationCode := some code,
                           codeExpires := some (now + 600000),
                           resetCode := none, resetCodeExpires := none }])

/-- Route `POST /auth/verify-code`.  In route order: missing fields, `NotFound`
when no record for the email, `InvalidCode` when the stored code differs,
`CodeExpired` when `Date.now() > user.codeExpires` (a null expiry coerces
to 0 in the JS comparison, hence `getD 0`); on success sets
`isVerified := true` and saves, leaving code and expiry in place. -/
def verifyCode (s : List User) (email code : String) (now : Nat) :
    Except AuthErr (List User) :=
  if email = "" ∨ code = "" then Except.error AuthErr.MissingFields
  else
    match findOneEmail s email with
    | none => Except.error AuthErr.NotFound
    | some u =>
      if u.verificationCode ≠ some code then Except.error AuthErr.InvalidCode
      else if u.codeExpires.getD 0 < now then Except.error AuthErr.CodeExpired
      else Except.ok (updateWhere s email (fun v => { v with isVerified := true }))

/-- Route `POST /auth/register`.  `hashed` stands for the bcrypt hash of the
submitted password.  In route order: missing fields; `UserExists` when a
record with this email already has a password; `VerificationRequired` when
no record exists or it is unverified; on success sets name and password and
clears the verification code and expiry.  (The route's `else` branch that
would create a brand-new user is unreachable: a missing record was already
rejected as `VerificationRequired`.)  Returns the new store and the id the
issued token is bound to. -/
def register (s : List User) (name email password hashed : String) :
    Except AuthErr (List User × Nat) :=
  if name = "" ∨ email = "" ∨ password = "" then Except.error AuthErr.MissingFields
  else
    match findOneEmail s email with
    | some u =>
      if u.password.isSome then Except.error AuthErr.UserExists
      else if u.isVerified = false then Except.error AuthErr.VerificationRequired
      else
        Except.ok (updateWhere s email (fun v =>
          { v with name := some name, password := some hashed,
                   verificationCode := none, codeExpires := none }), u.uid)
    | none => Except.error AuthErr.VerificationRequired

/-- Route `POST /auth/login`.  `pwMatches stored submitted` stands for
`bcrypt.compare(submitted, stored)`.  Returns the id the issued token is
bound to. -/
def login (s : List User) (email password : String)
    (pwMatches : String → String → Bool) : Except AuthErr Nat :=
  match findOneEmail s email with
  | none => Except.error AuthErr.InvalidCredentials
  | some u =>
    match u.password with
    | none => Except.error AuthErr.InvalidCredentials
    | some stored =>
      if u.isVerified = false then Except.error AuthErr.EmailNotVerified
      else if pwMatches stored password then Except.ok u.uid
      else Except.error AuthErr.InvalidCredentials

/-- Route `POST /auth/forgot-password`.  `code` stands for the generated reset
code.  `NotFound` when no record for the email exists (no check of
`isVerified` or of an existing password); otherwise stores the reset code
with a 30-minute expiry. -/
def forgotPassword (s : List User) (email code : String) (now : Nat) :
    Except AuthErr (List User) :=
  if email = "" then Except.error AuthErr.MissingFields
  else
    match findOneEmail s email with
    | none => Except.error AuthErr.NotFound
    | some _ =>
      Except.ok (updateWhere s email (fun u =>
        { u with resetCode := some code, resetCodeExpires := some (now + 1800000) }))

/-- Route `POST /auth/reset-password`.  `hashed` stands for the bcrypt hash of the
new password.  Finds `{email, resetCode: code, resetCodeExpires: {$gt: now}}`
(no check of `isVerified`); on success sets the password and clears the
reset fields. -/
def resetPassword (s : List User) (email code newPassword hashed : String) (now : Nat) :
    Except AuthErr (List User) :=
  if email = "" ∨ code = "" ∨ newPassword = "" then Except.error AuthErr.MissingFields
  else
    match s.find? (fun u =>
        u.email == email && u.resetCode == some code &&
        decide (now < u.resetCodeExpires.getD 0)) with
    | none => Except.error AuthErr.InvalidOrExpiredCode
    | some _ =>
      Except.ok (updateWhere s email (fun u =>
        { u with password := some hashed, resetCode := none, resetCodeExpires := none }))

/-- A decoded JWT as issued by register/login: payload `{userId}`, an
expiry instant, and a signature (`sig = secret` models a signature that
verifies against the secret). -/
structure Token where
  userId : Nat
  expiresAt : Nat
  sig : String
deriving Repr, DecidableEq

/-- Validation `jwt.verify(token, secret)`: yields the payload when the signature
matches the secret and the token is not expired. -/
def jwtVerify (secret : String) (now : Nat) (t : Token) : Option Nat :=
  if t.sig = secret ∧ now < t.expiresAt then some t.userId else none

/-- The `req.user` object the middleware installs.  The middleware sets
exactly `{ id: decoded.userId }`; it never sets a `userId` property, so
that field is `none` — reading it models the JS `req.user.userId`, which
is `undefined`. -/
structure ReqUser where
  id : Nat
  userId : Option Nat
deriving Repr, DecidableEq

/-- Middleware of `src/middleware/auth.js`: 401 without an `auth-token` header; 401 when
`jwt.verify` fails; otherwise installs `req.user = { id: decoded.userId }`
and calls the route.  The error value is the HTTP status code. -/
def authMiddleware (secret : String) (now : Nat) (tok : Option Token) :
    Except Nat ReqUser :=
  match tok with
  | none => Except.error 401
  | some t =>
    match jwtVerify secret now t with
    | some uidv => Except.ok { id := uidv, userId := none }
    | none => Except.error 401

/-- The user payload of `GET /auth/user`: the record after
`.select('-password -verificationCode -codeExpires -resetCode
-resetCodeExpires')`. -/
structure UserView where
  uid : Nat
  name : Option String
  email : String
  isVerified : Bool
deriving Repr, DecidableEq

/-- The projection made by the `.select` exclusion list. -/
def sanitizeUser (u : User) : UserView :=
  { uid := u.uid, name := u.name, email := u.email, isVerified := u.isVerified }

/-- Lookup `Model.findById(id)`: Mongoose replaces an `undefined` id by `null`
(`if (typeof id === 'undefined') id = null`) and `findOne({_id: null})`
matches no document, so a missing id yields `none`. -/
def findById (users : List User) : Option Nat → Option User
  | none => none
  | some i => users.find? (fun u => u.uid == i)

/-- Route `GET /auth/user` including the middleware: on auth success the route
runs `User.findById(req.user.userId)` — note `userId`, the property the
middleware never sets — then 404 when nothing is found, else the sanitized
record. -/
def getUserRoute (secret : String) (now : Nat) (tok : Option Token)
    (users : List User) : Except Nat UserView :=
  match authMiddleware secret now tok with
  | Except.error c => Except.error c
  | Except.ok ru =>
    match findById users ru.userId with
    | none => Except.error 404
    | some u => Except.ok (sanitizeUser u)

/-- Route `POST /todos/plan-tomorrow` including the middleware: auth first, then
the planning engine for `req.user.id`. -/
def planTomorrowRoute (secret : String) (now : Nat) (tok : Option Token)
    (store : List Todo) (tom : Nat) : Except Nat PlanResponse × List Todo :=
  match authMiddleware secret now tok with
  | Except.error c => (Except.error c, store)
  | Except.ok ru =>
    let r := planTomorrow store ru.id tom
    (Except.ok r.1, r.2)

/-- The midnight cron job of the server entry point: a single
`fetch(.../api/todos/plan-tomorrow, { method: 'POST' })` — one request,
with no `auth-token` header, and no iteration over users. -/
def cronTrigger (secret : String) (now : Nat) (store : List Todo) (tom : Nat) :
    Except Nat PlanResponse × List Todo :=
  planTomorrowRoute secret now none store tom

/-! ## Properties of the argmax scan -/

lemma scanBest_snd_le (f : Nat → Nat) :
    ∀ (l : List Nat) (acc : Nat × Nat), acc.2 ≤ (scanBest f l acc).2 := by
  intro l
  induction l with
  | nil => intro acc; simp [scanBest]
  | cons x xs ih =>
    intro acc
    simp only [scanBest]
    by_cases h : acc.2 < f x
    · rw [if_pos h]
      exact le_of_lt (lt_of_lt_of_le h (ih (x, f x)))
    · rw [if_neg h]
      exact ih acc

lemma scanBest_ub (f : Nat → Nat) :
    ∀ (l : List Nat) (acc : Nat × Nat) (d : Nat), d ∈ l → f d ≤ (scanBest f l acc).2 := by
  intro l
  induction l with
  | nil => intro acc d hd; simp at hd
  | cons x xs ih =>
    intro acc d hd
    simp only [scanBest]
    rcases List.mem_cons.mp hd with hdx | hdxs
    · subst hdx
      by_cases h : acc.2 < f d
      · rw [if_pos h]
        exact le_trans (le_refl (f d)) (scanBest_snd_le f xs (d, f d))
      · rw [if_neg h]
        exact le_trans (le_of_not_lt h) (scanBest_snd_le f xs acc)
    · by_cases h : acc.2 < f x
      · rw [if_pos h]; exact ih (x, f x) d hdxs
      · rw [if_neg h]; exact ih acc d hdxs

lemma scanBest_fix (f : Nat → Nat) :
    ∀ (l : List Nat) (acc : Nat × Nat), (scanBest f l acc).2 = acc.2 → scanBest f l acc = acc := by
  intro l
  induction l with
  | nil => intro acc _; rfl
  | cons x xs ih =>
    intro acc heq
    simp only [scanBest] at heq ⊢
    by_cases h : acc.2 < f x
    · rw [if_pos h] at heq
      have h2 : f x ≤ (scanBest f xs (x, f x)).2 := scanBest_snd_le f xs (x, f x)
      omega
    · rw [if_neg h] at heq ⊢
      exact ih acc heq

lemma scanBest_snd_eq (f : Nat → Nat) :
    ∀ (l : List Nat) (acc : Nat × Nat), acc.2 = f acc.1 →
      (scanBest f l acc).2 = f (scanBest f l acc).1 := by
  intro l
  induction l with
  | nil => intro acc h; exact h
  | cons x xs ih =>
    intro acc h
    simp only [scanBest]
    by_cases hx : acc.2 < f x
    · rw [if_pos hx]; exact ih (x, f x) rfl
    · rw [if_neg hx]; exact ih acc h

lemma scanBest_snd_eq_or (f : Nat → Nat) :
    ∀ (l : List Nat) (acc : Nat × Nat),
      (scanBest f l acc).2 = f (scanBest f l acc).1 ∨ scanBest f l acc = acc := by
  intro l
  induction l with
  | nil => intro acc; right; rfl
  | cons x xs ih =>
    intro acc
    simp only [scanBest]
    by_cases hx : acc.2 < f x
    · rw [if_pos hx]; left; exact scanBest_snd_eq f xs (x, f x) rfl
    · rw [if_neg hx]; exact ih acc

lemma scanBest_fst_mem (f : Nat → Nat) :
    ∀ (l : List Nat) (acc : Nat × Nat),
      (scanBest f l acc).1 = acc.1 ∨ (scanBest f l acc).1 ∈ l := by
  intro l
  induction l with
  | nil => intro acc; left; rfl
  | cons x xs ih =>
    intro acc
    simp only [scanBest]
    by_cases hx : acc.2 < f x
    · rw [if_pos hx]
      rcases ih (x, f x) with h | h
      · right; simp [h]
      · right; exact List.mem_cons_of_mem x h
    · rw [if_neg hx]
      rcases ih acc with h | h
      · left; exact h
      · right; exact List.mem_cons_of_mem x h

lemma scanBest_strict (f : Nat → Nat) :
    ∀ (l : List Nat) (acc : Nat × Nat), l.Pairwise (· < ·) →
      (acc = (0, 0) ∨ ∀ x ∈ l, acc.1 < x) →
      ∀ d ∈ l, d < (scanBest f l acc).1 → f d < (scanBest f l acc).2 := by
  intro l
  induction l with
  | nil => intro acc _ _ d hd; simp at hd
  | cons x xs ih =>
    intro acc hpw hinv d hd hlt
    have hpw2 : xs.Pairwise (· < ·) := (List.pairwise_cons.mp hpw).2
    have hxlt : ∀ y ∈ xs, x < y := (List.pairwise_cons.mp hpw).1
    simp only [scanBest] at hlt ⊢
    by_cases hx : acc.2 < f x
    · rw [if_pos hx] at hlt ⊢
      rcases List.mem_cons.mp hd with hdx | hdxs
      · subst hdx
        -- the head was installed as the accumulator; the final value moved past it,
        -- so the running maximum strictly increased afterwards
        by_cases hres : scanBest f xs (d, f d) = (d, f d)
        · rw [hres] at hlt; omega
        · have h1 : f d ≤ (scanBest f xs (d, f d)).2 := scanBest_snd_le f xs (d, f d)
          have h2 : (scanBest f xs (d, f d)).2 ≠ f d := by
            intro hc
            exact hres (scanBest_fix f xs (d, f d) hc)
          omega
      · exact ih (x, f x) hpw2 (Or.inr (by simpa using hxlt)) d hdxs hlt
    · rw [if_neg hx] at hlt ⊢
      have hinv2 : acc = (0, 0) ∨ ∀ y ∈ xs, acc.1 < y := by
        rcases hinv with h | h
        · exact Or.inl h
        · exact Or.inr (fun y hy => h y (List.mem_cons_of_mem x hy))
      rcases List.mem_cons.mp hd with hdx | hdxs
      · subst hdx
        by_cases hres : scanBest f xs acc = acc
        · rw [hres] at hlt
          rcases hinv with h | h
          · rw [h] at hlt; omega
          · exact absurd hlt (by have := h d (List.mem_cons_self d xs); omega)
        · have h1 : acc.2 ≤ (scanBest f xs acc).2 := scanBest_snd_le f xs acc
          have h2 : (scanBest f xs acc).2 ≠ acc.2 := by
            intro hc
            exact hres (scanBest_fix f xs acc hc)
          omega
      · exact ih acc hpw2 hinv2 d hdxs hlt

/-! ## Claim theorems -/

/-- Claim C1 (code bug): the midnight trigger performs no planning run for
any user.  The cron job issues a single POST with no `auth-token` header,
so for every signing secret, instant, todo store and planning date the
auth middleware rejects the request with 401 and the store is unchanged —
contradicting the claim that one independent planning run is performed for
each existing user. -/
theorem cron_trigger_plans_no_user (secret : String) (now : Nat)
    (store : List Todo) (tom : Nat) :
    cronTrigger secret now store tom = (Except.error 401, store) := rfl

/-- Claim C2 (code bug): for every valid, unexpired token — whatever user it
is bound to — `GET /auth/user` returns 404, never the user's record.  The
middleware installs `req.user = { id: userId }`, but the route reads
`req.user.userId`, which is undefined, and `findById` of an undefined id
matches no document. -/
theorem getUser_valid_token_is_404 (secret : String) (now : Nat)
    (users : List User) (t : Token)
    (hsig : t.sig = secret) (hexp : now < t.expiresAt) :
    getUserRoute secret now (some t) users = Except.error 404 := by
  simp [getUserRoute, authMiddleware, jwtVerify, findById, hsig, hexp]

/-- Witness for `getUser_valid_token_is_404`: a concrete valid token. -/
theorem getUser_valid_token_is_404_witness :
    getUserRoute "s3cret" 5 (some { userId := 1, expiresAt := 100, sig := "s3cret" })
      [{ uid := 1, name := some "u", email := "u@x.y", password := some "h",
         isVerified := true, verificationCode := none, codeExpires := none,
         resetCode := none, resetCodeExpires := none }] = Except.error 404 :=
  getUser_valid_token_is_404 "s3cret" 5 _ _ rfl (by decide)

/-- Completed todos used by the C9 counterexample: the first completion
falls on weekday 3 (Wednesday), the second on weekday 1 (Monday), so the
encounter order during histogram construction is `[3, 1]` while both
weekdays tie with one completion each. -/
def c9history : List Todo :=
  [{ tid := 1, title := "w", completed := true, completedAt := some 518400000,
     dueDate := none, priority := "medium", tags := [], category := "general",
     notes := "", user := 1, createdAt := 0 },
   { tid := 2, title := "m", completed := true, completedAt := some 345600000,
     dueDate := none, priority := "medium", tags := [], category := "general",
     notes := "", user := 1, createdAt := 0 }]

/-- Claim C9 counterexample: on a history whose completions tie between
weekday 3 (encountered first during histogram construction) and weekday 1,
the code reports weekday 1 — `Object.keys` iterates integer-like keys in
ascending numeric order, not insertion order — while the claimed
first-encounter tie-break (`mostProductiveDaySpec`, modelled from the
spec's words) yields weekday 3. -/
theorem mostProductiveDay_not_first_encounter :
    mostProductiveDay c9history = 1 ∧ mostProductiveDaySpec c9history = 3 ∧
    mostProductiveDay c9history ≠ mostProductiveDaySpec c9history := by decide

/-- Claim C9 amended: `mostProductiveDay` is the weekday with the highest
completion count over the completions that carry a timestamp; ties resolve
to the LOWEST weekday index among those with the highest count (not to the
first encountered during histogram construction); with no completions the
result is weekday 0. -/
theorem mostProductiveDay_argmax (ts : List Todo) :
    mostProductiveDay ts < 7 ∧
    (∀ d, d < 7 → completionByDay ts d ≤ completionByDay ts (mostProductiveDay ts)) ∧
    (∀ d, d < mostProductiveDay ts →
      completionByDay ts d < completionByDay ts (mostProductiveDay ts)) ∧
    ((∀ d, d < 7 → completionByDay ts d = 0) → mostProductiveDay ts = 0) := by
  set f := completionByDay ts with hf
  set res := scanBest f (List.range 7) (0, 0) with hres
  have hub : ∀ d, d < 7 → f d ≤ res.2 := fun d hd =>
    scanBest_ub f (List.range 7) (0, 0) d (List.mem_range.mpr hd)
  have hpw : (List.range 7).Pairwise (· < ·) := by decide
  have hlt7 : res.1 < 7 := by
    rcases scanBest_fst_mem f (List.range 7) (0, 0) with h | h
    · rw [h]; omega
    · exact List.mem_range.mp h
  have hkey : res.2 = f res.1 := by
    rcases scanBest_snd_eq_or f (List.range 7) (0, 0) with h | h
    · exact h
    · have h0 : f 0 ≤ res.2 := hub 0 (by omega)
      rw [hres, h] at h0 ⊢
      simp only [Prod.snd, Prod.fst] at h0 ⊢
      omega
  have hmpd : mostProductiveDay ts = res.1 := rfl
  refine ⟨by rw [hmpd]; exact hlt7, ?_, ?_, ?_⟩
  · intro d hd
    rw [hmpd, ← hkey]
    exact hub d hd
  · intro d hd
    rw [hmpd, ← hkey]
    rw [hmpd] at hd
    exact scanBest_strict f (List.range 7) (0, 0) hpw (Or.inl rfl) d
      (List.mem_range.mpr (by omega)) hd
  · intro hzero
    have h2 : res.2 = 0 := by
      rw [hkey]; exact hzero res.1 hlt7
    have hfix := scanBest_fix f (List.range 7) (0, 0) h2
    rw [hmpd, hres, hfix]

/-- Witness for `mostProductiveDay_argmax`: instantiated on the
counterexample history, the reported weekday 1 carries the maximal count
and every smaller weekday has a strictly smaller count. -/
theorem mostProductiveDay_argmax_witness :
    completionByDay c9history 3 ≤ completionByDay c9history (mostProductiveDay c9history) ∧
    completionByDay c9history 0 < completionByDay c9history (mostProductiveDay c9history) :=
  ⟨(mostProductiveDay_argmax c9history).2.1 3 (by decide),
   (mostProductiveDay_argmax c9history).2.2.1 0 (by decide)⟩

/-- Store for the C3 counterexample: one todo owned by user 1. -/
def c3store : List Todo :=
  [{ tid := 1, title := "t", completed := false, completedAt := none,
     dueDate := none, priority := "medium", tags := [], category := "general",
     notes := "", user := 1, createdAt := 0 }]

/-- A `PUT /todos/1` body that contains only `{ user: 2 }`. -/
def c3body : UpdateBody :=
  { title := none, completed := none, completedAt := none, dueDate := none,
    priority := none, tags := none, category := none, notes := none,
    user := some 2 }

/-- Claim C3 counterexample: the owner (user 1) issues a PUT on their own
todo with request body `{ user: 2 }`; the route passes the body wholesale
to `findByIdAndUpdate`, so the updated todo is now owned by user 2 — the
owner reference changed even though the claim says it never does for any
request body. -/
theorem put_body_can_change_owner :
    c3store.all (fun t => t.user == 1) = true ∧
    ((updateTodo c3store 1 1 c3body 5).map fun r => r.2.user) = some 2 := by decide

/-- Claim C3 amended: the owner reference is never changed by creation
(set once from the token), by plan-tomorrow (due-date reassignment only),
or by deletion, and a PUT by the owner preserves the owner PROVIDED the
request body does not itself contain a `user` field; a body carrying
`user` rewrites the owner (mass assignment). -/
theorem owner_preserved_without_user_field :
    (∀ uid b tid now, (createTodo uid b tid now).user = uid) ∧
    (∀ (store : List Todo) uid tid b now st2 t2, b.user = none →
      updateTodo store uid tid b now = some (st2, t2) → t2.user = uid) ∧
    (∀ (store : List Todo) uid tom, ∀ t2 ∈ (planTomorrow store uid tom).2,
      ∃ t ∈ store, t2.tid = t.tid ∧ t2.user = t.user) ∧
    (∀ (store : List Todo) uid tid st2, deleteTodo store uid tid = some st2 →
      ∀ t ∈ st2, t ∈ store) := by
  refine ⟨fun uid b tid now => rfl, ?_, ?_, ?_⟩
  · intro store uid tid b now st2 t2 hb hupd
    unfold updateTodo at hupd
    cases hfind : store.find? (fun x => x.tid == tid && x.user == uid) with
    | none => rw [hfind] at hupd; exact absurd hupd (by simp)
    | some t =>
      rw [hfind] at hupd
      simp only [Option.some.injEq, Prod.mk.injEq] at hupd
      have huser : t.user = uid := by
        have := List.find?_some hfind
        simp only [Bool.and_eq_true, beq_iff_eq] at this
        exact this.2
      have hadj : (adjustBody t b now).user = b.user := by
        unfold adjustBody
        split
        · rfl
        · split <;> rfl
      have ht2 : t2 = applyBody t (adjustBody t b now) := hupd.2.symm
      rw [ht2]
      unfold applyBody
      simp only [hadj, hb, Option.getD_none]
      exact huser
  · intro store uid tom t2 ht2
    by_cases hg : 0 < (store.filter (dueTomorrowFor uid tom)).length
    · rw [planTomorrow_pos store uid tom hg] at ht2
      exact ⟨t2, ht2, rfl, rfl⟩
    · rw [planTomorrow_neg store uid tom hg] at ht2
      unfold planWriteBack at ht2
      simp only [List.map_map, List.mem_map] at ht2
      obtain ⟨t, ht, heq⟩ := ht2
      refine ⟨t, ht, ?_⟩
      rw [← heq]
      simp only [Function.comp]
      constructor
      · split <;> split <;> rfl
      · split <;> split <;> rfl
  · intro store uid tid st2 hdel t ht
    unfold deleteTodo at hdel
    cases hfind : store.find? (fun x => x.tid == tid && x.user == uid) with
    | none => rw [hfind] at hdel; exact absurd hdel (by simp)
    | some t0 =>
      rw [hfind] at hdel
      simp only [Option.some.injEq] at hdel
      rw [← hdel] at ht
      exact List.mem_of_mem_filter ht

/-- A plain `POST /todos` body carrying only a title. -/
def plainCreateBody : CreateBody :=
  { title := "x", completed := none, dueDate := none, priority := none,
    tags := none, category := none, notes := none }

/-- A `PUT /todos/:id` body that renames the todo and carries no `user`
field. -/
def renameBody : UpdateBody :=
  { title := some "renamed", completed := none, completedAt := none,
    dueDate := none, priority := none, tags := none, category := none,
    notes := none, user := none }

/-- Witness for `owner_preserved_without_user_field`: a PUT without a
`user` field on the counterexample store keeps owner 1. -/
theorem owner_preserved_without_user_field_witness :
    (createTodo 7 plainCreateBody 1 0).user = 7 ∧
    (updateTodo c3store 1 1 renameBody 5).elim True (fun r => r.2.user = 1) :=
  ⟨owner_preserved_without_user_field.1 7 plainCreateBody 1 0, by
    cases hupd : updateTodo c3store 1 1 renameBody 5 with
    | none => exact trivial
    | some r =>
      exact owner_preserved_without_user_field.2.1 c3store 1 1 renameBody 5 r.1 r.2 rfl
        (by rw [hupd])⟩

/-- The C4 counterexample run: starting from an empty user store, request a
verification code for `a@b.c` (upserting an unverified record), then run
the password-reset flow for the same address — `forgot-password` and
`reset-password` never check `isVerified` or an existing password. -/
def c4chain : Except AuthErr (List User) :=
  match sendVerificationCode [] "a@b.c" "111111" 0 1 with
  | Except.error e => Except.error e
  | Except.ok s1 =>
    match forgotPassword s1 "a@b.c" "222222" 0 with
    | Except.error e => Except.error e
    | Except.ok s2 => resetPassword s2 "a@b.c" "222222" "pw" "hpw" 0

/-- The user record the C4 counterexample run produces. -/
def c4final : User :=
  { uid := 1, name := none, email := "a@b.c", password := some "hpw",
    isVerified := false, verificationCode := some "111111",
    codeExpires := some 600000, resetCode := none, resetCodeExpires := none }

/-- Claim C4 counterexample: the reachable state after
send-verification-code, forgot-password, reset-password holds a user with
`isVerified = false` AND a password set — the password was set by
`reset-password`, not by `register`, on an unverified record. -/
theorem unverified_user_with_password_reachable :
    c4chain = Except.ok [c4final] ∧
    c4final.isVerified = false ∧ c4final.password = some "hpw" := ⟨rfl, rfl, rfl⟩

/-- Claim C4 amended: `register` sets a password only for a record that
exists, has no password yet, and has `isVerified = true`; however
`resetPassword` can also set a password, with no `isVerified` check, so a
reachable state may contain an unverified user holding a password. -/
theorem register_requires_verified_record (s : List User)
    (name email password hashed : String) (s2 : List User) (uid : Nat)
    (hok : register s name email password hashed = Except.ok (s2, uid)) :
    ∃ u, findOneEmail s email = some u ∧ u.isVerified = true ∧ u.password = none := by
  unfold register at hok
  split at hok
  · exact absurd hok (by simp)
  · split at hok
    · split at hok
      · exact absurd hok (by simp)
      · split at hok
        · exact absurd hok (by simp)
        · rename_i u hfind hpw hv
          refine ⟨u, hfind, ?_, ?_⟩
          · cases hb : u.isVerified with
            | false => exact absurd hb hv
            | true => rfl
          · cases hp : u.password with
            | none => rfl
            | some p => rw [hp] at hpw; exact absurd rfl hpw
    · exact absurd hok (by simp)

/-- A verified, password-less user record, witness input for
`register_requires_verified_record`. -/
def verifiedUser : User :=
  { uid := 3, name := none, email := "v@x.y", password := none,
    isVerified := true, verificationCode := some "999999",
    codeExpires := some 600000, resetCode := none, resetCodeExpires := none }

/-- Witness for `register_requires_verified_record`: registration succeeds
on a store holding a verified code-bearing record. -/
theorem register_requires_verified_record_witness :
    ∃ u, findOneEmail [verifiedUser] "v@x.y" = some u ∧
      u.isVerified = true ∧ u.password = none :=
  register_requires_verified_record [verifiedUser] "n" "v@x.y" "pw" "hpw"
    (updateWhere [verifiedUser] "v@x.y" (fun v =>
      { v with name := some "n", password := some "hpw",
               verificationCode := none, codeExpires := none })) 3 rfl

/-- A `POST /todos` body with `completed: true`. -/
def completedCreateBody : CreateBody :=
  { title := "done already", completed := some true, dueDate := none,
    priority := none, tags := none, category := none, notes := none }

/-- Claim C7 counterexample: a todo created with `completed: true` (one
POST from any state) has `completed = true` but no `completedAt` — the
route never backfills the stamp at creation, so "completedAt is set if and
only if completed == true" fails in a reachable state. -/
theorem created_completed_has_no_stamp :
    (createTodo 1 completedCreateBody 1 0).completed = true ∧
    (createTodo 1 completedCreateBody 1 0).completedAt = none := ⟨rfl, rfl⟩

/-- Claim C7 amended: `completedAt` is never set at creation; on a PUT
whose body does not itself carry a `completedAt` value, the stamp is set
to `now` exactly on a transition of `completed` from false to true,
cleared when the body sets `completed: false`, and untouched otherwise —
but since creation can set `completed: true` without a stamp, the
if-and-only-if of the original claim does not hold. -/
theorem completedAt_stamp_transitions :
    (∀ uid b tid now, (createTodo uid b tid now).completedAt = none) ∧
    (∀ (store : List Todo) uid tid b now t st2 t2, b.completedAt = none →
      store.find? (fun x => x.tid == tid && x.user == uid) = some t →
      updateTodo store uid tid b now = some (st2, t2) →
      ((b.completed = some true ∧ t.completed = false) → t2.completedAt = some now) ∧
      (b.completed = some false → t2.completedAt = none) ∧
      ((b.completed = some true ∧ t.completed = true) → t2.completedAt = t.completedAt) ∧
      (b.completed = none → t2.completedAt = t.completedAt ∧ t2.completed = t.completed)) := by
  refine ⟨fun uid b tid now => rfl, ?_⟩
  intro store uid tid b now t st2 t2 hb hfind hupd
  unfold updateTodo at hupd
  rw [hfind] at hupd
  simp only [Option.some.injEq, Prod.mk.injEq] at hupd
  have ht2 : t2 = applyBody t (adjustBody t b now) := hupd.2.symm
  refine ⟨?_, ?_, ?_, ?_⟩
  · intro hcase
    rw [ht2]
    unfold applyBody adjustBody
    rw [if_pos hcase]
    rfl
  · intro hcase
    rw [ht2]
    unfold applyBody adjustBody
    have hne : ¬(b.completed = some true ∧ t.completed = false) := by
      intro hc; rw [hcase] at hc; exact absurd hc.1 (by simp)
    rw [if_neg hne, if_pos hcase]
    rfl
  · intro hcase
    rw [ht2]
    unfold applyBody adjustBody
    have hne : ¬(b.completed = some true ∧ t.completed = false) := by
      intro hc; rw [hcase.2] at hc; exact absurd hc.2 (by simp)
    have hne2 : ¬(b.completed = some false) := by
      rw [hcase.1]; simp
    rw [if_neg hne, if_neg hne2]
    simp [hb]
  · intro hcase
    rw [ht2]
    unfold applyBody adjustBody
    have hne : ¬(b.completed = some true ∧ t.completed = false) := by
      intro hc; rw [hcase] at hc; exact absurd hc.1 (by simp)
    have hne2 : ¬(b.completed = some false) := by
      rw [hcase]; simp
    rw [if_neg hne, if_neg hne2]
    simp [hb, hcase]

/-- The store for the C7 witness: a single pending todo of user 1. -/
def pendingStore : List Todo :=
  [{ tid := 4, title := "p", completed := false, completedAt := none,
     dueDate := none, priority := "medium", tags := [], category := "general",
     notes := "", user := 1, createdAt := 0 }]

/-- A `PUT /todos/:id` body marking the todo completed, with no
`completedAt` of its own. -/
def completeBody : UpdateBody :=
  { title := none, completed := some true, completedAt := none,
    dueDate := none, priority := none, tags := none, category := none,
    notes := none, user := none }

/-- Witness for `completedAt_stamp_transitions`: completing the pending
todo of `pendingStore` at instant 77 stamps `completedAt = 77`. -/
theorem completedAt_stamp_transitions_witness :
    (createTodo 2 plainCreateBody 9 3).completedAt = none ∧
    (updateTodo pendingStore 1 4 completeBody 77).elim True
      (fun r => r.2.completedAt = some 77) :=
  ⟨completedAt_stamp_transitions.1 2 plainCreateBody 9 3, by
    cases hupd : updateTodo pendingStore 1 4 completeBody 77 with
    | none => exact trivial
    | some r =>
      exact (completedAt_stamp_transitions.2 pendingStore 1 4 completeBody 77
        (pendingStore.get ⟨0, by decide⟩) r.1 r.2 rfl rfl (by rw [hupd])).1
        ⟨rfl, rfl⟩⟩

/-- Claim C5 counterexample: for a user with no todos (empty store, same
calendar day, no intervening operations), the first plan-tomorrow call
returns `planned = true` with zero tasks, and the SECOND call again
returns `planned = true` — not `planned = false` as the claim requires of
every second call — because the first call assigned nothing, so the guard
finds no task due tomorrow. -/
theorem plan_twice_can_stay_planned :
    (planTomorrow [] 1 86400000).1 = PlanResponse.planned 0 0 ∧
    (planTomorrow (planTomorrow [] 1 86400000).2 1 86400000).1 =
      PlanResponse.planned 0 0 := ⟨rfl, rfl⟩

/-- Claim C5 amended: if the first call returns `planned = true` with a
POSITIVE task count n, then an immediately repeated call (same planning
date, no intervening operations) returns `planned = false` with
`tasksExisting = n`; and in general a call returns `planned = false` with
count k exactly when the user already has k > 0 todos with a due date in
`[tomorrow, tomorrow + 24h)`.  (When the first call plans zero tasks the
second call plans again — the counterexample above.) -/
theorem plan_tomorrow_idempotent (store : List Todo) (uid tom : Nat) :
    (∀ n mpd, (planTomorrow store uid tom).1 = PlanResponse.planned n mpd → 0 < n →
      (planTomorrow (planTomorrow store uid tom).2 uid tom).1 =
        PlanResponse.alreadyPlanned n) ∧
    (∀ k, (planTomorrow store uid tom).1 = PlanResponse.alreadyPlanned k →
      k = (store.filter (dueTomorrowFor uid tom)).length ∧ 0 < k ∧
      (planTomorrow store uid tom).2 = store) ∧
    (0 < (store.filter (dueTomorrowFor uid tom)).length →
      (planTomorrow store uid tom).1 =
        PlanResponse.alreadyPlanned (store.filter (dueTomorrowFor uid tom)).length) := by
  by_cases hg : 0 < (store.filter (dueTomorrowFor uid tom)).length
  · rw [planTomorrow_pos store uid tom hg]
    refine ⟨?_, ?_, ?_⟩
    · intro n mpd h1
      exact absurd h1 (by simp)
    · intro k hk
      simp only [PlanResponse.alreadyPlanned.injEq] at hk
      exact ⟨hk.symm, hk ▸ hg, rfl⟩
    · intro _; rfl
  · rw [planTomorrow_neg store uid tom hg]
    refine ⟨?_, ?_, ?_⟩
    · intro n mpd h1 hpos
      simp only [PlanResponse.planned.injEq] at h1
      have hn : ((planWriteBack store uid tom).filter (dueTomorrowFor uid tom)).length = n :=
        h1.1
      rw [planTomorrow_pos (planWriteBack store uid tom) uid tom (by rw [hn]; exact hpos)]
      rw [hn]
    · intro k hk
      exact absurd hk (by simp)
    · intro h; exact absurd h hg

/-- Store for the C5/C6 witnesses: one pending high-priority todo of
user 1 and one unrelated todo of user 2. -/
def highStore : List Todo :=
  [{ tid := 1, title := "urgent", completed := false, completedAt := none,
     dueDate := none, priority := "high", tags := [], category := "general",
     notes := "", user := 1, createdAt := 0 },
   { tid := 2, title := "other", completed := false, completedAt := none,
     dueDate := none, priority := "low", tags := [], category := "general",
     notes := "", user := 2, createdAt := 0 }]

/-- Witness for `plan_tomorrow_idempotent`: on `highStore` the first call
plans exactly one task, and the repeated call reports
`planned = false` with `tasksExisting = 1`. -/
theorem plan_tomorrow_idempotent_witness :
    (planTomorrow (planTomorrow highStore 1 86400000).2 1 86400000).1 =
      PlanResponse.alreadyPlanned 1 :=
  (plan_tomorrow_idempotent highStore 1 86400000).1 1 0 rfl (by decide)

/-- Claim C6 (confirmed): in every planning run that passes the
idempotence guard, every pending high-priority todo of the user ends up in
the written-back store with `dueDate = tomorrow`, keeping its id, owner
and priority — independent of `optimalTaskCount` and of whatever due date
it had before. -/
theorem high_priority_always_planned (store : List Todo) (uid tom : Nat)
    (hg : (store.filter (dueTomorrowFor uid tom)).length = 0)
    (t : Todo) (ht : t ∈ store) (huser : t.user = uid)
    (hpend : t.completed = false) (hprio : t.priority = "high") :
    ∃ t2 ∈ (planTomorrow store uid tom).2,
      t2.tid = t.tid ∧ t2.user = uid ∧ t2.priority = "high" ∧
      t2.dueDate = some tom := by
  rw [planTomorrow_neg store uid tom (by omega)]
  unfold planWriteBack
  simp only [List.map_map, List.mem_map]
  have hcond : ((!t.completed && t.user == uid) && t.priority == "high") = true := by
    simp [hpend, huser, hprio]
  refine ⟨_, ⟨t, ht, rfl⟩, ?_⟩
  simp only [Function.comp]
  rw [if_pos hcond]
  split <;> exact ⟨rfl, huser, hprio, rfl⟩

/-- Witness for `high_priority_always_planned`: the pending high-priority
todo of `highStore` is due tomorrow after the run. -/
theorem high_priority_always_planned_witness :
    ∃ t2 ∈ (planTomorrow highStore 1 86400000).2,
      t2.tid = 1 ∧ t2.user = 1 ∧ t2.priority = "high" ∧
      t2.dueDate = some 86400000 :=
  high_priority_always_planned highStore 1 86400000 (by decide)
    (highStore.get ⟨0, by decide⟩) (by decide) rfl rfl rfl

lemma map_id_on (l : List Todo) (f : Todo → Todo) (h : ∀ a ∈ l, f a = a) :
    l.map f = l := by
  induction l with
  | nil => rfl
  | cons x xs ih =>
    simp only [List.map_cons]
    rw [h x (List.mem_cons_self x xs), ih (fun a ha => h a (List.mem_cons_of_mem x ha))]

lemma filter_nil_of_owner (store : List Todo) (uid : Nat) (p : Todo → Bool)
    (h : ∀ t ∈ store, t.user ≠ uid) (hp : ∀ t, p t = true → t.user = uid) :
    store.filter p = [] := by
  induction store with
  | nil => rfl
  | cons x xs ih =>
    have hx : p x = false := by
      cases hpx : p x with
      | false => rfl
      | true => exact absurd (hp x hpx) (h x (List.mem_cons_self x xs))
    simp only [List.filter, hx]
    exact ih (fun t ht => h t (List.mem_cons_of_mem x ht))

/-- The write phase touches nothing when the user owns no todos. -/
lemma planWriteBack_id (store : List Todo) (uid tom : Nat)
    (h : ∀ t ∈ store, t.user ≠ uid) : planWriteBack store uid tom = store := by
  have hpend : store.filter (fun t => !t.completed && t.user == uid) = [] :=
    filter_nil_of_owner store uid _ h (by
      intro t hpt
      simp only [Bool.and_eq_true, beq_iff_eq] at hpt
      exact hpt.2)
  have hmap : store.map (fun t =>
      if (!t.completed && t.user == uid) && t.priority == "high" then
        { t with dueDate := some tom }
      else t) = store := by
    apply map_id_on
    intro a ha
    have hc : ((!a.completed && a.user == uid) && a.priority == "high") = false := by
      cases hc2 : (!a.completed && a.user == uid) && a.priority == "high" with
      | false => rfl
      | true =>
        simp only [Bool.and_eq_true, beq_iff_eq] at hc2
        exact absurd hc2.1.2 (h a ha)
    rw [hc]
    simp
  simp only [planWriteBack, hpend, hmap]
  simp

/-- Claim C10 (confirmed): for a user who owns no todos, plan-tomorrow
succeeds with `planned = true` and `taskCount = 0` (and the default
weekday 0), leaves the store unchanged, and an immediately repeated call
again returns `planned = true` — the idempotence guard only fires when at
least one existing todo of the user is due tomorrow. -/
theorem plan_tomorrow_no_todos (store : List Todo) (uid tom : Nat)
    (h : ∀ t ∈ store, t.user ≠ uid) :
    (planTomorrow store uid tom).1 = PlanResponse.planned 0 0 ∧
    (planTomorrow store uid tom).2 = store ∧
    (planTomorrow (planTomorrow store uid tom).2 uid tom).1 =
      PlanResponse.planned 0 0 := by
  have hdue : store.filter (dueTomorrowFor uid tom) = [] :=
    filter_nil_of_owner store uid _ h (by
      intro t hpt
      simp only [dueTomorrowFor, Bool.and_eq_true, beq_iff_eq] at hpt
      exact hpt.2)
  have hcomp : store.filter (fun t => t.completed && t.user == uid) = [] :=
    filter_nil_of_owner store uid _ h (by
      intro t hpt
      simp only [Bool.and_eq_true, beq_iff_eq] at hpt
      exact hpt.2)
  have hneg : ¬ 0 < (store.filter (dueTomorrowFor uid tom)).length := by
    rw [hdue]; simp
  have hplan : planTomorrow store uid tom = (PlanResponse.planned 0 0, store) := by
    rw [planTomorrow_neg store uid tom hneg, planWriteBack_id store uid tom h, hdue, hcomp]
    rfl
  refine ⟨by rw [hplan], by rw [hplan], ?_⟩
  have h2 : (planTomorrow store uid tom).2 = store := by rw [hplan]
  rw [h2, hplan]

/-- Store for the C10 witness: a single todo owned by user 2; user 1 owns
nothing. -/
def otherUserStore : List Todo :=
  [{ tid := 9, title := "not mine", completed := false, completedAt := none,
     dueDate := some 86400000, priority := "high", tags := [],
     category := "general", notes := "", user := 2, createdAt := 0 }]

/-- Witness for `plan_tomorrow_no_todos`: user 1 owns nothing in
`otherUserStore`, so both consecutive calls return `planned = true` with
zero tasks. -/
theorem plan_tomorrow_no_todos_witness :
    (planTomorrow otherUserStore 1 86400000).1 = PlanResponse.planned 0 0 ∧
    (planTomorrow otherUserStore 1 86400000).2 = otherUserStore ∧
    (planTomorrow (planTomorrow otherUserStore 1 86400000).2 1 86400000).1 =
      PlanResponse.planned 0 0 :=
  plan_tomorrow_no_todos otherUserStore 1 86400000 (by decide)

lemma findOneEmail_updateWhere (s : List User) (email : String) (f : User → User)
    (hf : ∀ v, (f v).email = v.email) :
    ∀ u, findOneEmail s email = some u →
      findOneEmail (updateWhere s email f) email = some (f u) := by
  induction s with
  | nil => intro u hu; exact absurd hu (by simp [findOneEmail])
  | cons x xs ih =>
    intro u hu
    unfold findOneEmail at hu ⊢
    unfold updateWhere
    rw [List.find?_cons] at hu
    rw [List.map_cons, List.find?_cons]
    by_cases hx : (x.email == email) = true
    · rw [hx] at hu
      have hxu : x = u := Option.some.inj hu
      have hhead : (if x.email == email then f x else x) = f x := if_pos hx
      rw [hhead]
      have hpred : ((f x).email == email) = true := by rw [hf x]; exact hx
      rw [hpred, hxu]
    · have hx2 : (x.email == email) = false := by
        cases hc : x.email == email with
        | false => rfl
        | true => exact absurd hc hx
      rw [hx2] at hu
      have hhead : (if x.email == email then f x else x) = x := by rw [hx2]; simp
      rw [hhead, hx2]
      exact ih u hu

/-- Shape of `verifyCode` when no record exists for the email. -/
lemma verifyCode_shape_notfound (s : List User) (email code : String) (now : Nat)
    (hmf : ¬(email = "" ∨ code = "")) (hfind : findOneEmail s email = none) :
    verifyCode s email code now = Except.error AuthErr.NotFound := by
  unfold verifyCode
  rw [if_neg hmf, hfind]

/-- Shape of `verifyCode` when a record exists for the email. -/
lemma verifyCode_shape_found (s : List User) (email code : String) (now : Nat)
    (u : User) (hmf : ¬(email = "" ∨ code = "")) (hfind : findOneEmail s email = some u) :
    verifyCode s email code now =
      (if u.verificationCode ≠ some code then Except.error AuthErr.InvalidCode
       else if u.codeExpires.getD 0 < now then Except.error AuthErr.CodeExpired
       else Except.ok (updateWhere s email (fun v => { v with isVerified := true }))) := by
  unfold verifyCode
  rw [if_neg hmf, hfind]

/-- Claim C8 (confirmed): `verify-code` fails with `NotFound` exactly when
no record exists for the email; otherwise with `InvalidCode` exactly when
the stored code differs from the submitted one; otherwise with
`CodeExpired` exactly when `now > codeExpires` — so a matching code
checked at any instant `≤ codeExpires` succeeds and at `codeExpires + 1ms`
fails — and on success it sets `isVerified = true` while leaving the
stored code and expiry untouched. -/
theorem verifyCode_exact_errors (s : List User) (email code : String) (now : Nat)
    (hemail : email ≠ "") (hcode : code ≠ "") :
    (verifyCode s email code now = Except.error AuthErr.NotFound ↔
      findOneEmail s email = none) ∧
    (∀ u, findOneEmail s email = some u →
      (verifyCode s email code now = Except.error AuthErr.InvalidCode ↔
        u.verificationCode ≠ some code)) ∧
    (∀ u e, findOneEmail s email = some u → u.verificationCode = some code →
      u.codeExpires = some e →
      ((verifyCode s email code now = Except.error AuthErr.CodeExpired ↔ e < now) ∧
       (now ≤ e → verifyCode s email code now =
          Except.ok (updateWhere s email (fun v => { v with isVerified := true }))) ∧
       (now ≤ e → findOneEmail (updateWhere s email
            (fun v => { v with isVerified := true })) email =
          some { u with isVerified := true }))) := by
  have hmf : ¬(email = "" ∨ code = "") := fun hc => hc.elim hemail hcode
  refine ⟨?_, ?_, ?_⟩
  · cases hfind : findOneEmail s email with
    | none => simp [verifyCode_shape_notfound s email code now hmf hfind]
    | some u =>
      rw [verifyCode_shape_found s email code now u hmf hfind]
      split_ifs <;> simp
  · intro u hu
    rw [verifyCode_shape_found s email code now u hmf hu]
    split_ifs with h1 h2 <;> simp [h1]
  · intro u e hu hvc hce
    rw [verifyCode_shape_found s email code now u hmf hu]
    have h1 : ¬(u.verificationCode ≠ some code) := by simp [hvc]
    rw [if_neg h1]
    refine ⟨?_, ?_, ?_⟩
    · rw [hce]
      simp only [Option.getD_some]
      split_ifs with h2 <;> simp [h2]
    · intro hle
      rw [hce]
      simp only [Option.getD_some]
      rw [if_neg (by omega)]
    · intro _
      exact findOneEmail_updateWhere s email
        (fun v => { v with isVerified := true }) (fun v => rfl) u hu

/-- Store for the C8 witness: an unverified record for `a@b.c` holding a
code that expires at instant 1000. -/
def c8store : List User :=
  [{ uid := 2, name := none, email := "a@b.c", password := none,
     isVerified := false, verificationCode := some "123456",
     codeExpires := some 1000, resetCode := none, resetCodeExpires := none }]

/-- Witness for `verifyCode_exact_errors`: checking the matching code at
the exact expiry instant (`now = codeExpires`) succeeds and marks the
record verified. -/
theorem verifyCode_exact_errors_witness :
    verifyCode c8store "a@b.c" "123456" 1000 =
      Except.ok (updateWhere c8store "a@b.c" (fun v => { v with isVerified := true })) :=
  ((verifyCode_exact_errors c8store "a@b.c" "123456" 1000 (by decide)
    (by decide)).2.2 (c8store.get ⟨0, by decide⟩) 1000 rfl rfl rfl).2.1 (by decide)

end TodoApp
